import Mathlib

/-!
# Verification of the pyapollo Apollo configuration client

A shallow embedding of `pyapollo/apollo_client.py` (class `ApolloClient`).

Modelling conventions:
* Python dicts (`self._notification_map`, `self._cache`, `self._cache_file`,
  the on-disk directory of config files) are association lists with the
  dict operations `dictLookup` / `dictInsert` / `dictErase` (the latter is
  `dict.pop(k)` with `KeyError` swallowed, as the source does).
* The HTTP transport (`requests.get`) is an environment `Env` mapping each
  endpoint to its response; a raised `requests` exception (connection
  failure / timeout) is the response constructor `exn`.
* Python exceptions are `Except PyErr`; the recursion
  `get_value → _long_poll → (callback) get_conf_file → get_value` is made
  total with a fuel parameter, `PyErr.fuelOut` marking fuel exhaustion
  (never raised by the real program; theorems quantify over enough fuel).
* `yaml.load` / `json.loads` on a blob are represented symbolically by
  `FileView`, which records which external parser `_loads` dispatched to
  together with the raw blob it was given.
* The user `on_change` callback is an external collaborator; the embedding
  records only whether one is registered (`Config.hasOnChangeCb`), and
  models its invocation by the state effects of the argument computation
  `self.get_conf_file(namespace=ns)` that the source performs at the call.
-/

/-- Which external parser `_loads` dispatches to, applied to the raw blob:
`yaml.load value`, `json.loads value`, or the raw string itself. -/
inductive FileView where
  | yamlDoc (blob : String)
  | jsonDoc (blob : String)
  | raw (blob : String)
deriving DecidableEq, Repr

/-- A Python exception escaping a method of the client. -/
inductive PyErr where
  /-- An exception raised by `requests.get` (connection failure, timeout). -/
  | requestExn
  /-- The `raise Exception('apollo response error: ...')` in `_long_poll`. -/
  | apolloError (code : Nat)
  /-- A `KeyError` from `self._cache[namespace]`. -/
  | keyError
  /-- Artefact of the embedding: recursion fuel ran out. -/
  | fuelOut
deriving DecidableEq, Repr

/-- Response of the `/notifications/v2` long-poll endpoint. -/
inductive LPResp where
  | exn
  | status (code : Nat) (entries : List (String × Int))
deriving DecidableEq, Repr

/-- Response of the `/configs/...` endpoint (`_uncached_http_get`). -/
inductive CfgResp where
  | exn
  | status (code : Nat) (configurations : List (String × String))
deriving DecidableEq, Repr

/-- Response of the `/configfiles/json/...` endpoint (`_cached_http_get`):
`ok` is `r.ok` with the body's JSON map, `notOk` any non-ok status. -/
inductive CfgFileResp where
  | exn
  | ok (data : List (String × String))
  | notOk
deriving DecidableEq, Repr

/-- The external world: one deterministic response per endpoint, plus
whether a disk write for a given namespace file fails. -/
structure Env where
  longPoll : LPResp
  configs : String → CfgResp
  configfiles : String → CfgFileResp
  saveFails : String → Bool

/-- Construction-time configuration that the modelled methods branch on:
whether an `on_change` callback was registered and the `auto_failover`
flag. -/
structure Config where
  hasOnChangeCb : Bool
  autoFailover : Bool
deriving DecidableEq, Repr

/-- The mutable state of an `ApolloClient` instance plus the directory of
config files it persists to (`self.conf_dir`). -/
structure ClientState where
  /-- `self._notification_map : dict[str, int]`. -/
  notificationMap : List (String × Int)
  /-- `self._cache : dict[str, dict[str, str]]`. -/
  cache : List (String × List (String × String))
  /-- `self._cache_file : dict[str, parsed]`. -/
  cacheFile : List (String × FileView)
  /-- The files under `self.conf_dir`, one per namespace. -/
  disk : List (String × String)
  /-- `self._stopping`. -/
  stopping : Bool
  /-- `self.stopped`. -/
  stopped : Bool
deriving DecidableEq, Repr

/-- `d[k]` lookup on a Python dict modelled as an association list. -/
def dictLookup {α : Type} : List (String × α) → String → Option α
  | [], _ => none
  | (k, v) :: rest, key => if k = key then some v else dictLookup rest key

/-- `d[k] = v` on a Python dict: overwrite in place, else append. -/
def dictInsert {α : Type} : List (String × α) → String → α → List (String × α)
  | [], key, val => [(key, val)]
  | (k, v) :: rest, key, val =>
    if k = key then (k, val) :: rest else (k, v) :: dictInsert rest key val

/-- `d.pop(k)` with `KeyError` swallowed: remove the binding for `k`. -/
def dictErase {α : Type} (m : List (String × α)) (key : String) :
    List (String × α) :=
  m.filter (fun p => !(p.1 = key : Bool))

theorem dictLookup_insert_self {α : Type} (m : List (String × α)) (k : String)
    (v : α) : dictLookup (dictInsert m k v) k = some v := by
  induction m with
  | nil => simp [dictInsert, dictLookup]
  | cons p rest ih =>
    obtain ⟨k', v'⟩ := p
    by_cases h : k' = k
    · simp [dictInsert, h, dictLookup]
    · simp [dictInsert, h, dictLookup, ih]

theorem dictLookup_insert_ne {α : Type} (m : List (String × α))
    (k k' : String) (v : α) (h : k ≠ k') :
    dictLookup (dictInsert m k v) k' = dictLookup m k' := by
  induction m with
  | nil => simp [dictInsert, dictLookup, h]
  | cons p rest ih =>
    obtain ⟨k₀, v₀⟩ := p
    by_cases h0 : k₀ = k
    · subst h0
      simp [dictInsert, dictLookup, h]
    · simp [dictInsert, h0, dictLookup, ih]

theorem dictLookup_insert_isSome {α : Type} (m : List (String × α))
    (k k' : String) (v : α) (h : (dictLookup m k').isSome) :
    (dictLookup (dictInsert m k v) k').isSome := by
  by_cases hk : k = k'
  · subst hk
    simp [dictLookup_insert_self]
  · rwa [dictLookup_insert_ne m k k' v hk]

theorem dictLookup_erase_self {α : Type} (m : List (String × α))
    (k : String) : dictLookup (dictErase m k) k = none := by
  induction m with
  | nil => simp [dictErase, dictLookup]
  | cons p rest ih =>
    obtain ⟨k', v'⟩ := p
    by_cases h : k' = k
    · simpa [dictErase, h, dictLookup] using ih
    · simpa [dictErase, h, dictLookup] using ih

theorem dictLookup_erase_some {α : Type} (m : List (String × α))
    (k k' : String) (v : α)
    (h : dictLookup (dictErase m k) k' = some v) :
    dictLookup m k' = some v := by
  induction m with
  | nil => simp [dictErase, dictLookup] at h
  | cons p rest ih =>
    obtain ⟨k₀, v₀⟩ := p
    by_cases h0 : k₀ = k
    · subst h0
      by_cases h1 : k₀ = k'
      · subst h1
        have hnone := dictLookup_erase_self rest k₀
        have h' : dictLookup (dictErase rest k₀) k₀ = some v := by
          simpa [dictErase, dictLookup] using h
        rw [hnone] at h'
        exact absurd h' (by simp)
      · have h' : dictLookup (dictErase rest k₀) k' = some v := by
          simpa [dictErase, dictLookup] using h
        simpa [dictLookup, h1] using ih h'
    · by_cases h1 : k₀ = k'
      · subst h1
        simp [dictErase, h0, dictLookup] at h ⊢
        exact h
      · have h' : dictLookup (dictErase rest k) k' = some v := by
          simpa [dictErase, h0, dictLookup, h1] using h
        simpa [dictLookup, h1] using ih h'

/-! ## Leaf operations of the client -/

/-- `os.path.splitext(namespace)[1]`: the extension of a filename
(everything from the last dot, skipping any leading dots). -/
def extOf (s : String) : String :=
  let cs := s.data
  let lead := (cs.takeWhile (fun c => c = '.')).length
  let rest := cs.drop lead
  if rest.contains '.' then
    String.mk ('.' :: (rest.reverse.takeWhile (fun c => c ≠ '.')).reverse)
  else ""

/-- `ApolloClient._loads`: deserialize the blob according to the namespace
name's extension (`.yaml` → `yaml.load`, `.json` → `json.loads`, anything
else → the raw value). -/
def loads (ns value : String) : FileView :=
  if extOf ns = ".yaml" then FileView.yamlDoc value
  else if extOf ns = ".json" then FileView.jsonDoc value
  else FileView.raw value

/-- `ApolloClient._save_conf_to_disk`: write the blob to
`conf_dir/namespace`; a write failure is logged and swallowed. -/
def save_conf_to_disk (env : Env) (ns data : String) (st : ClientState) :
    ClientState :=
  if env.saveFails ns then st
  else { st with disk := dictInsert st.disk ns data }

/-- `ApolloClient._get_conf_from_disk`: read `conf_dir/namespace`; a read
failure (including a missing file) is logged and yields `None`. -/
def get_conf_from_disk (ns : String) (st : ClientState) : Option String :=
  dictLookup st.disk ns

/-- The guard `if namespace not in self._notification_map:
self._notification_map[namespace] = -1` at the top of `get_value`. -/
def ensureNotif (st : ClientState) (ns : String) : ClientState :=
  if (dictLookup st.notificationMap ns).isSome then st
  else { st with notificationMap := dictInsert st.notificationMap ns (-1) }

/-- `ApolloClient._uncached_http_get`: GET `/configs/...`; on a 200
response replace the namespace's snapshot with the body's
`configurations` field and pop the parsed-file cache entry; on any other
status do nothing. A transport exception propagates. -/
def uncached_http_get (env : Env) (ns : String) (st : ClientState) :
    Except PyErr ClientState :=
  match env.configs ns with
  | CfgResp.exn => Except.error PyErr.requestExn
  | CfgResp.status code cfgs =>
    if code = 200 then
      Except.ok { st with
        cache := dictInsert st.cache ns cfgs,
        cacheFile := dictErase st.cacheFile ns }
    else Except.ok st

/-- `ApolloClient._cached_http_get`: GET `/configfiles/json/...`; on an ok
response replace the snapshot with the body and pop the parsed-file cache
entry, otherwise read back the existing snapshot (`self._cache[namespace]`,
a `KeyError` if absent); then return the requested key or the default. -/
def cached_http_get (env : Env) (key : String) (dflt : Option String)
    (ns : String) (st : ClientState) :
    Except PyErr (Option String × ClientState) :=
  match env.configfiles ns with
  | CfgFileResp.exn => Except.error PyErr.requestExn
  | CfgFileResp.ok data =>
    let st1 := { st with
      cache := dictInsert st.cache ns data,
      cacheFile := dictErase st.cacheFile ns }
    match dictLookup data key with
    | some v => Except.ok (some v, st1)
    | none => Except.ok (dflt, st1)
  | CfgFileResp.notOk =>
    match dictLookup st.cache ns with
    | none => Except.error PyErr.keyError
    | some data =>
      match dictLookup data key with
      | some v => Except.ok (some v, st)
      | none => Except.ok (dflt, st)

/-- The tail of `get_value` after the namespace is ensured present:
`if key in self._cache[namespace]: return it; elif auto_fetch: ...;
else: return default`. A `KeyError` if the namespace vanished. -/
def readCachedValue (env : Env) (key : String) (dflt : Option String)
    (ns : String) (autoFetch : Bool) (st : ClientState) :
    Except PyErr (Option String × ClientState) :=
  match dictLookup st.cache ns with
  | none => Except.error PyErr.keyError
  | some m =>
    match dictLookup m key with
    | some v => Except.ok (some v, st)
    | none =>
      if autoFetch then cached_http_get env key dflt ns st
      else Except.ok (dflt, st)

/-- The state preparation of `get_value`'s cold-namespace branch:
`self._cache[namespace] = {}` after the notification-map guard. -/
def coldPrep (st : ClientState) (ns : String) : ClientState :=
  let st1 := ensureNotif st ns
  { st1 with cache := dictInsert st1.cache ns [] }

mutual

/-- `ApolloClient.get_value`: public read. Ensure a notification-map
entry; on a cold namespace insert an empty snapshot and do a blocking
`_long_poll`; then read the key from the snapshot, falling back to
`_cached_http_get` (when `auto_fetch_on_cache_miss`) or the default. -/
def get_value (fuel : Nat) (cfg : Config) (env : Env) (key : String)
    (dflt : Option String) (ns : String) (autoFetch : Bool)
    (st : ClientState) : Except PyErr (Option String × ClientState) :=
  match fuel with
  | 0 => Except.error PyErr.fuelOut
  | Nat.succ fuel =>
    let st1 := ensureNotif st ns
    if (dictLookup st1.cache ns).isSome then
      readCachedValue env key dflt ns autoFetch st1
    else
      (long_poll fuel cfg env
        { st1 with cache := dictInsert st1.cache ns [] }).bind
        (fun st3 => readCachedValue env key dflt ns autoFetch st3)

/-- `ApolloClient.get_conf_file`: return the parsed-file cache entry if
present; otherwise fetch the `content` key via `get_value` (default seeded
from disk when failover is enabled), persist, parse, cache, return. -/
def get_conf_file (fuel : Nat) (cfg : Config) (env : Env) (ns : String)
    (autoFailover : Bool) (st : ClientState) :
    Except PyErr (Option FileView × ClientState) :=
  match fuel with
  | 0 => Except.error PyErr.fuelOut
  | Nat.succ fuel =>
    match dictLookup st.cacheFile ns with
    | some v => Except.ok (some v, st)
    | none =>
      let dflt := if cfg.autoFailover && autoFailover then
          get_conf_from_disk ns st else none
      match get_value fuel cfg env "content" dflt ns true st with
      | Except.error e => Except.error e
      | Except.ok (none, st1) => Except.ok (none, st1)
      | Except.ok (some v, st1) =>
        let st2 := if cfg.autoFailover && autoFailover then
            save_conf_to_disk env ns v st1 else st1
        let parsed := loads ns v
        Except.ok (some parsed,
          { st2 with cacheFile := dictInsert st2.cacheFile ns parsed })

/-- `ApolloClient._long_poll`: GET `/notifications/v2`; `304` → return
with no mutation; `200` → process each changed-namespace entry; any other
status → `raise Exception('apollo response error: ...')`. -/
def long_poll (fuel : Nat) (cfg : Config) (env : Env) (st : ClientState) :
    Except PyErr ClientState :=
  match fuel with
  | 0 => Except.error PyErr.fuelOut
  | Nat.succ fuel =>
    match env.longPoll with
    | LPResp.exn => Except.error PyErr.requestExn
    | LPResp.status code entries =>
      if code = 304 then Except.ok st
      else if code = 200 then processEntries fuel cfg env entries st
      else Except.error (PyErr.apolloError code)

/-- The `for entry in data:` loop of `_long_poll`. -/
def processEntries (fuel : Nat) (cfg : Config) (env : Env)
    (entries : List (String × Int)) (st : ClientState) :
    Except PyErr ClientState :=
  match fuel with
  | 0 => Except.error PyErr.fuelOut
  | Nat.succ fuel =>
    match entries with
    | [] => Except.ok st
    | (ns, nid) :: rest =>
      (processEntry fuel cfg env ns nid st).bind
        (fun st1 => processEntries fuel cfg env rest st1)

/-- One iteration of `_long_poll`'s loop: `self._uncached_http_get(ns)`;
`self._notification_map[ns] = nid`; and, when a callback is registered,
the state effects of `self.get_conf_file(namespace=ns)` computed as the
callback's argument. -/
def processEntry (fuel : Nat) (cfg : Config) (env : Env) (ns : String)
    (nid : Int) (st : ClientState) : Except PyErr ClientState :=
  match fuel with
  | 0 => Except.error PyErr.fuelOut
  | Nat.succ fuel =>
    match uncached_http_get env ns st with
    | Except.error e => Except.error e
    | Except.ok st1 =>
      let st2 := { st1 with
        notificationMap := dictInsert st1.notificationMap ns nid }
      if cfg.hasOnChangeCb then
        match get_conf_file fuel cfg env ns true st2 with
        | Except.error e => Except.error e
        | Except.ok (_, st3) => Except.ok st3
      else Except.ok st2

end

/-! ## Frame/preservation infrastructure

`Preserves env st st'` collects the state facts that every operation of
the sync machinery maintains: the stop flags are untouched, cached
namespaces are never dropped, and a notification id that every long-poll
entry for its namespace agrees with is never changed. -/

/-- Every entry for namespace `k` in the long-poll response carries the
sequence id `nid`. Holds vacuously when the poll does not return 200 with
a conflicting duplicate for `k`. -/
def EnvConsistent (env : Env) (k : String) (nid : Int) : Prop :=
  ∀ c es, env.longPoll = LPResp.status c es →
    ∀ p ∈ es, p.1 = k → p.2 = nid

/-- The entry `p` agrees with every consistent id assignment for its
namespace; true of each element of the long-poll response list. -/
def EntryOK (env : Env) (p : String × Int) : Prop :=
  ∀ k nid, EnvConsistent env k nid → p.1 = k → p.2 = nid

/-- State facts preserved by every operation of the sync machinery. -/
def Preserves (env : Env) (st st' : ClientState) : Prop :=
  st'.stopping = st.stopping ∧ st'.stopped = st.stopped ∧
  (∀ k, (dictLookup st.cache k).isSome → (dictLookup st'.cache k).isSome) ∧
  (∀ k nid, EnvConsistent env k nid →
    dictLookup st.notificationMap k = some nid →
    dictLookup st'.notificationMap k = some nid)

theorem preservesRefl (env : Env) (st : ClientState) : Preserves env st st :=
  ⟨by simp, by simp, fun _ h => h, fun _ _ _ h => h⟩

theorem preservesTrans {env : Env} {a b c : ClientState}
    (h1 : Preserves env a b) (h2 : Preserves env b c) : Preserves env a c := by
  obtain ⟨s1, t1, c1, n1⟩ := h1
  obtain ⟨s2, t2, c2, n2⟩ := h2
  exact ⟨s2.trans s1, t2.trans t1, fun k h => c2 k (c1 k h),
    fun k nid hec h => n2 k nid hec (n1 k nid hec h)⟩

theorem preserves_ensureNotif (env : Env) (st : ClientState) (ns : String) :
    Preserves env st (ensureNotif st ns) := by
  unfold ensureNotif
  split
  · exact preservesRefl env st
  · rename_i habs
    refine ⟨by simp, by simp, fun _ h => h, fun k nid _ h => ?_⟩
    by_cases hk : ns = k
    · subst hk
      rw [h] at habs
      simp at habs
    · simpa [dictLookup_insert_ne _ _ _ _ hk] using h

theorem preserves_uncached {env : Env} {ns : String} {st st' : ClientState}
    (h : uncached_http_get env ns st = Except.ok st') :
    Preserves env st st' := by
  unfold uncached_http_get at h
  cases henv : env.configs ns with
  | exn => rw [henv] at h; simp at h
  | status code cfgs =>
    rw [henv] at h
    by_cases hc : code = 200
    · simp only [hc, if_pos rfl] at h
      cases h
      exact ⟨by simp, by simp,
        fun k hk => dictLookup_insert_isSome _ _ _ _ hk, fun _ _ _ h => h⟩
    · simp only [hc, if_neg hc] at h
      simp at h
      cases h
      exact preservesRefl env st

theorem preserves_cached {env : Env} {key : String} {dflt : Option String}
    {ns : String} {st : ClientState} {v : Option String} {st' : ClientState}
    (h : cached_http_get env key dflt ns st = Except.ok (v, st')) :
    Preserves env st st' := by
  unfold cached_http_get at h
  cases henv : env.configfiles ns with
  | exn => rw [henv] at h; simp at h
  | ok data =>
    rw [henv] at h
    dsimp only at h
    have hpres : Preserves env st
        { st with
          cache := dictInsert st.cache ns data,
          cacheFile := dictErase st.cacheFile ns } :=
      ⟨by simp, by simp, fun k hk => dictLookup_insert_isSome _ _ _ _ hk,
        fun _ _ _ h => h⟩
    cases hl : dictLookup data key with
    | some w => rw [hl] at h; simp at h; rw [← h.2]; exact hpres
    | none => rw [hl] at h; simp at h; rw [← h.2]; exact hpres
  | notOk =>
    rw [henv] at h
    dsimp only at h
    cases hc : dictLookup st.cache ns with
    | none => rw [hc] at h; simp at h
    | some data =>
      rw [hc] at h
      dsimp only at h
      cases hl : dictLookup data key with
      | some w =>
        rw [hl] at h; simp at h; rw [← h.2]; exact preservesRefl env st
      | none =>
        rw [hl] at h; simp at h; rw [← h.2]; exact preservesRefl env st

theorem preserves_readCachedValue {env : Env} {key : String}
    {dflt : Option String} {ns : String} {af : Bool} {st : ClientState}
    {v : Option String} {st' : ClientState}
    (h : readCachedValue env key dflt ns af st = Except.ok (v, st')) :
    Preserves env st st' := by
  unfold readCachedValue at h
  cases hc : dictLookup st.cache ns with
  | none => rw [hc] at h; simp at h
  | some m =>
    rw [hc] at h
    dsimp only at h
    cases hl : dictLookup m key with
    | some w =>
      rw [hl] at h; simp at h; rw [← h.2]; exact preservesRefl env st
    | none =>
      rw [hl] at h
      by_cases haf : af
      · rw [haf] at h; simp only [if_pos rfl] at h
        exact preserves_cached h
      · simp only [haf, if_neg] at h
        simp at h
        rw [← h.2]
        exact preservesRefl env st

theorem preserves_save (env : Env) (ns data : String) (st : ClientState) :
    Preserves env st (save_conf_to_disk env ns data st) := by
  unfold save_conf_to_disk
  split
  · exact preservesRefl env st
  · exact ⟨by simp, by simp, fun _ h => h, fun _ _ _ h => h⟩

theorem preserves_cacheFileSet (env : Env) (st : ClientState)
    (cf : List (String × FileView)) :
    Preserves env st { st with cacheFile := cf } :=
  ⟨rfl, rfl, fun _ h => h, fun _ _ _ h => h⟩

theorem preserves_saveOrId (env : Env) (c : Prop) [Decidable c]
    (ns b : String) (st : ClientState) :
    Preserves env st (if c then save_conf_to_disk env ns b st else st) := by
  split
  · exact preserves_save env ns b st
  · exact preservesRefl env st

/-- Preservation through the whole sync machinery: every successful run of
`long_poll`, `processEntries`, `processEntry`, `get_value` or
`get_conf_file` leaves the stop flags untouched, keeps every cached
namespace cached, and keeps any notification id that is consistent with
the long-poll response. -/
theorem statePres (cfg : Config) (env : Env) : ∀ fuel : Nat,
    (∀ st st', long_poll fuel cfg env st = Except.ok st' →
      Preserves env st st')
    ∧ (∀ entries, (∀ p ∈ entries, EntryOK env p) → ∀ st st',
        processEntries fuel cfg env entries st = Except.ok st' →
        Preserves env st st')
    ∧ (∀ ns nid, EntryOK env (ns, nid) → ∀ st st',
        processEntry fuel cfg env ns nid st = Except.ok st' →
        Preserves env st st')
    ∧ (∀ key dflt ns af st v st',
        get_value fuel cfg env key dflt ns af st = Except.ok (v, st') →
        Preserves env st st')
    ∧ (∀ ns af st v st',
        get_conf_file fuel cfg env ns af st = Except.ok (v, st') →
        Preserves env st st') := by
  intro fuel
  induction fuel with
  | zero =>
    refine ⟨fun st st' h => ?_, fun entries _ st st' h => ?_,
      fun ns nid _ st st' h => ?_, fun key dflt ns af st v st' h => ?_,
      fun ns af st v st' h => ?_⟩
    · simp [long_poll] at h
    · simp [processEntries] at h
    · simp [processEntry] at h
    · simp [get_value] at h
    · simp [get_conf_file] at h
  | succ fuel ih =>
    obtain ⟨ihLP, ihPEs, ihPE, ihGV, ihGCF⟩ := ih
    refine ⟨fun st st' h => ?_, fun entries He st st' h => ?_,
      fun ns nid Hok st st' h => ?_, fun key dflt ns af st v st' h => ?_,
      fun ns af st v st' h => ?_⟩
    -- long_poll
    · simp only [long_poll] at h
      cases henv : env.longPoll with
      | exn => rw [henv] at h; simp at h
      | status code es =>
        rw [henv] at h
        dsimp only at h
        by_cases h304 : code = 304
        · rw [if_pos h304] at h
          cases h
          exact preservesRefl env st
        · rw [if_neg h304] at h
          by_cases h200 : code = 200
          · rw [if_pos h200] at h
            subst h200
            exact ihPEs es (fun p hp k nid hec hk => hec 200 es henv p hp hk)
              st st' h
          · rw [if_neg h200] at h
            simp at h
    -- processEntries
    · simp only [processEntries] at h
      cases entries with
      | nil =>
        dsimp only at h
        cases h
        exact preservesRefl env st
      | cons p rest =>
        obtain ⟨ns, nid⟩ := p
        dsimp only at h
        cases hpe : processEntry fuel cfg env ns nid st with
        | error e => rw [hpe] at h; simp [Except.bind] at h
        | ok st1 =>
          rw [hpe] at h
          simp only [Except.bind] at h
          exact preservesTrans
            (ihPE ns nid (He (ns, nid) (by simp)) st st1 hpe)
            (ihPEs rest (fun q hq => He q (by simp [hq])) st1 st' h)
    -- processEntry
    · simp only [processEntry] at h
      cases huc : uncached_http_get env ns st with
      | error e => rw [huc] at h; simp at h
      | ok st1 =>
        rw [huc] at h
        dsimp only at h
        have P1 : Preserves env st st1 := preserves_uncached huc
        have P2 : Preserves env st1
            { st1 with
              notificationMap := dictInsert st1.notificationMap ns nid } := by
          refine ⟨rfl, rfl, fun k hk => hk, fun k nid' hec hmap => ?_⟩
          by_cases hk : ns = k
          · subst hk
            have hn : nid = nid' := Hok ns nid' hec rfl
            subst hn
            simp [dictLookup_insert_self]
          · simpa [dictLookup_insert_ne _ _ _ _ hk] using hmap
        by_cases hcb : cfg.hasOnChangeCb
        · rw [if_pos hcb] at h
          cases hg : get_conf_file fuel cfg env ns true
              { st1 with
                notificationMap := dictInsert st1.notificationMap ns nid } with
          | error e => rw [hg] at h; simp at h
          | ok pr =>
            obtain ⟨vv, st3⟩ := pr
            rw [hg] at h
            dsimp only at h
            cases h
            exact preservesTrans (preservesTrans P1 P2) (ihGCF ns true _ vv _ hg)
        · rw [if_neg hcb] at h
          cases h
          exact preservesTrans P1 P2
    -- get_value
    · simp only [get_value] at h
      by_cases hc : (dictLookup (ensureNotif st ns).cache ns).isSome
      · rw [if_pos hc] at h
        exact preservesTrans (preserves_ensureNotif env st ns)
          (preserves_readCachedValue h)
      · rw [if_neg hc] at h
        cases hlp : long_poll fuel cfg env
            { ensureNotif st ns with
              cache := dictInsert (ensureNotif st ns).cache ns [] } with
        | error e => rw [hlp] at h; simp [Except.bind] at h
        | ok st3 =>
          rw [hlp] at h
          simp only [Except.bind] at h
          have P2 : Preserves env (ensureNotif st ns)
              { ensureNotif st ns with
                cache := dictInsert (ensureNotif st ns).cache ns [] } :=
            ⟨rfl, rfl, fun k hk => dictLookup_insert_isSome _ _ _ _ hk,
              fun _ _ _ hm => hm⟩
          exact preservesTrans
            (preservesTrans (preserves_ensureNotif env st ns) P2)
            (preservesTrans (ihLP _ st3 hlp) (preserves_readCachedValue h))
    -- get_conf_file
    · simp only [get_conf_file] at h
      cases hcf : dictLookup st.cacheFile ns with
      | some w =>
        rw [hcf] at h
        dsimp only at h
        simp at h
        rw [← h.2]
        exact preservesRefl env st
      | none =>
        rw [hcf] at h
        dsimp only at h
        cases hgv : get_value fuel cfg env "content"
            (if cfg.autoFailover && af then get_conf_from_disk ns st
             else none) ns true st with
        | error e => rw [hgv] at h; simp at h
        | ok pr =>
          obtain ⟨vv, st1⟩ := pr
          rw [hgv] at h
          have P1 := ihGV "content" _ ns true st vv st1 hgv
          cases vv with
          | none =>
            simp at h
            rw [← h.2]
            exact P1
          | some b =>
            dsimp only at h
            simp at h
            rw [← h.2]
            exact preservesTrans P1
              (preservesTrans (preserves_saveOrId env _ ns b st1)
                (preserves_cacheFileSet env _ _))

/-! ## Lifecycle: start, stop, the listener loop -/

/-- The synchronous prefix of `ApolloClient.start`, before any thread or
eventlet is spawned: `if len(self._cache) == 0: self._long_poll()`. -/
def start_sync (fuel : Nat) (cfg : Config) (env : Env) (st : ClientState) :
    Except PyErr ClientState :=
  if st.cache.isEmpty then long_poll fuel cfg env st else Except.ok st

/-- `ApolloClient.stop`: set the cooperative `_stopping` flag. -/
def stop (st : ClientState) : ClientState := { st with stopping := true }

/-- One `try: self._long_poll() except: log` body of `_listener`; the
state reached when an exception is raised mid-poll is not tracked (the
pre-cycle state stands in for it). -/
def runCycle (fuel : Nat) (cfg : Config) (env : Env) (st : ClientState) :
    ClientState :=
  match long_poll fuel cfg env st with
  | Except.ok st' => st'
  | Except.error _ => st

/-- Control position of the `_listener` loop: at the top of the `while`
(the only place `_stopping` is read), inside a poll/apply cycle, or
exited. -/
inductive Phase where
  | top
  | inFlight
  | halted
deriving DecidableEq, Repr

/-- Small-step semantics of `_listener`: at the top of the loop the
cooperative flag is consulted; once a cycle is in flight it runs to
completion without ever reading the flag; after the loop exits,
`self.stopped = True`. -/
def listenerStep (fuel : Nat) (cfg : Config) (env : Env) :
    Phase × ClientState → Phase × ClientState
  | (Phase.top, st) =>
    if st.stopping then (Phase.halted, { st with stopped := true })
    else (Phase.inFlight, st)
  | (Phase.inFlight, st) => (Phase.top, runCycle fuel cfg env st)
  | (Phase.halted, st) => (Phase.halted, st)

/-- `n` consecutive `_long_poll` calls (the listener's steady-state loop
when no stop is requested). -/
def repeatLongPoll (n fuel : Nat) (cfg : Config) (env : Env)
    (st : ClientState) : Except PyErr ClientState :=
  match n with
  | 0 => Except.ok st
  | Nat.succ n =>
    match long_poll fuel cfg env st with
    | Except.ok st' => repeatLongPoll n fuel cfg env st'
    | Except.error e => Except.error e

/-! ## Frame facts of the no-callback sync loop -/

/-- The sync loop's file-side frame: the disk directory is unchanged and
the parsed-file cache gained no entry (anything present afterwards was
present, with the same parsed value, before). -/
def FileFrame (st st' : ClientState) : Prop :=
  st'.disk = st.disk ∧
  ∀ k v, dictLookup st'.cacheFile k = some v →
    dictLookup st.cacheFile k = some v

theorem fileFrameRefl (st : ClientState) : FileFrame st st :=
  ⟨by simp, fun _ _ h => h⟩

theorem fileFrameTrans {a b c : ClientState}
    (h1 : FileFrame a b) (h2 : FileFrame b c) : FileFrame a c :=
  ⟨h2.1.trans h1.1, fun k v h => h1.2 k v (h2.2 k v h)⟩

theorem fileFrame_uncached {env : Env} {ns : String} {st st' : ClientState}
    (h : uncached_http_get env ns st = Except.ok st') : FileFrame st st' := by
  unfold uncached_http_get at h
  cases henv : env.configs ns with
  | exn => rw [henv] at h; simp at h
  | status code cfgs =>
    rw [henv] at h
    by_cases hc : code = 200
    · simp only [hc, if_pos rfl] at h
      cases h
      exact ⟨by simp, fun k v hk => dictLookup_erase_some _ _ _ _ hk⟩
    · simp only [hc, if_neg hc] at h
      simp at h
      cases h
      exact fileFrameRefl st

/-- With no registered change callback, the sync loop leaves the disk
store unchanged and never adds a parsed-file cache entry. -/
theorem noCbFrame (cfg : Config) (env : Env)
    (hcb : cfg.hasOnChangeCb = false) : ∀ fuel : Nat,
    (∀ st st', long_poll fuel cfg env st = Except.ok st' → FileFrame st st')
    ∧ (∀ entries st st',
        processEntries fuel cfg env entries st = Except.ok st' →
        FileFrame st st')
    ∧ (∀ ns nid st st',
        processEntry fuel cfg env ns nid st = Except.ok st' →
        FileFrame st st') := by
  intro fuel
  induction fuel with
  | zero =>
    refine ⟨fun st st' h => ?_, fun entries st st' h => ?_,
      fun ns nid st st' h => ?_⟩
    · simp [long_poll] at h
    · simp [processEntries] at h
    · simp [processEntry] at h
  | succ fuel ih =>
    obtain ⟨ihLP, ihPEs, ihPE⟩ := ih
    refine ⟨fun st st' h => ?_, fun entries st st' h => ?_,
      fun ns nid st st' h => ?_⟩
    · simp only [long_poll] at h
      cases henv : env.longPoll with
      | exn => rw [henv] at h; simp at h
      | status code es =>
        rw [henv] at h
        dsimp only at h
        by_cases h304 : code = 304
        · rw [if_pos h304] at h
          cases h
          exact fileFrameRefl st
        · rw [if_neg h304] at h
          by_cases h200 : code = 200
          · rw [if_pos h200] at h
            exact ihPEs es st st' h
          · rw [if_neg h200] at h
            simp at h
    · simp only [processEntries] at h
      cases entries with
      | nil =>
        dsimp only at h
        cases h
        exact fileFrameRefl st
      | cons p rest =>
        obtain ⟨ns, nid⟩ := p
        dsimp only at h
        cases hpe : processEntry fuel cfg env ns nid st with
        | error e => rw [hpe] at h; simp [Except.bind] at h
        | ok st1 =>
          rw [hpe] at h
          simp only [Except.bind] at h
          exact fileFrameTrans (ihPE ns nid st st1 hpe)
            (ihPEs rest st1 st' h)
    · simp only [processEntry] at h
      cases huc : uncached_http_get env ns st with
      | error e => rw [huc] at h; simp at h
      | ok st1 =>
        rw [huc] at h
        dsimp only at h
        rw [hcb] at h
        simp only [Bool.false_eq_true, if_neg] at h
        simp at h
        cases h
        exact fileFrameTrans (fileFrame_uncached huc)
          ⟨by simp, fun _ _ hk => hk⟩

/-! ## Concrete fixtures used by witnesses and counterexamples -/

def cfgPlain : Config := ⟨false, true⟩
def cfgCb : Config := ⟨true, true⟩
def env304 : Env :=
  ⟨LPResp.status 304 [], fun _ => CfgResp.status 500 [],
    fun _ => CfgFileResp.notOk, fun _ => false⟩
def env500 : Env :=
  ⟨LPResp.status 500 [], fun _ => CfgResp.status 500 [],
    fun _ => CfgFileResp.notOk, fun _ => false⟩
def envExn : Env :=
  ⟨LPResp.exn, fun _ => CfgResp.status 500 [],
    fun _ => CfgFileResp.notOk, fun _ => false⟩
def envChange : Env :=
  ⟨LPResp.status 200 [("application", 7)], fun _ => CfgResp.status 500 [],
    fun _ => CfgFileResp.notOk, fun _ => false⟩
def envDup : Env :=
  ⟨LPResp.status 200 [("a", 1), ("a", 2)], fun _ => CfgResp.status 500 [],
    fun _ => CfgFileResp.notOk, fun _ => false⟩
def envEvict : Env :=
  ⟨LPResp.status 200 [("a", 1)],
    fun ns => if ns = "a" then CfgResp.status 200 [("content", "new")]
      else CfgResp.status 500 [],
    fun _ => CfgFileResp.notOk, fun _ => false⟩
def stEmpty : ClientState := ⟨[("application", -1)], [], [], [], false, false⟩
def stWarm : ClientState :=
  ⟨[("application", -1)], [("application", [("k", "v")])], [], [], false, false⟩
def stPrior : ClientState :=
  ⟨[("application", -1)], [("application", [])], [], [], false, false⟩
def stA : ClientState := ⟨[("a", -1)], [], [], [], false, false⟩
def stEvict : ClientState :=
  ⟨[("a", -1)], [], [("a", FileView.raw "old")], [], false, false⟩

theorem ensureNotif_cache (st : ClientState) (ns : String) :
    (ensureNotif st ns).cache = st.cache := by
  unfold ensureNotif; split <;> rfl

/-! ## Claim C2 -/

/-- C2: a long-poll answered with status 304 leaves the client state —
in particular the notification map and the namespace cache — exactly
unchanged, however many times it is repeated: `n` successive polls return
the original state. -/
theorem apollo_c2_idempotent_304 (n fuel : Nat) (cfg : Config) (env : Env)
    (st : ClientState) (es : List (String × Int))
    (h : env.longPoll = LPResp.status 304 es) :
    repeatLongPoll n (fuel + 1) cfg env st = Except.ok st := by
  induction n with
  | zero => rfl
  | succ n ih =>
    have hlp : long_poll (fuel + 1) cfg env st = Except.ok st := by
      simp [long_poll, h]
    simp [repeatLongPoll, hlp, ih]

/-- C2 witness: three successive 304 polls on a concrete state. -/
theorem apollo_c2_witness :
    repeatLongPoll 3 1 cfgPlain env304 stWarm = Except.ok stWarm :=
  apollo_c2_idempotent_304 3 0 cfgPlain env304 stWarm [] rfl

/-! ## Claim C4 -/

/-- C4 counterexample: on a non-200 `/configs` response (here 500) the
fetch leaves the cache untouched but returns silently — no failure of any
kind is surfaced to the caller (the claim asserts the failure is
surfaced). -/
theorem apollo_c4_counterexample :
    uncached_http_get env500 "application" stEmpty = Except.ok stEmpty := rfl

/-- C4 (amended): on any non-200 `/configs` response the cached snapshot
is left untouched, and the call returns silently: the caller observes a
normal return of the unchanged state, not an error. -/
theorem apollo_c4_non200_no_update (env : Env) (ns : String)
    (st : ClientState) (c : Nat) (cfgs : List (String × String))
    (henv : env.configs ns = CfgResp.status c cfgs) (hne : c ≠ 200) :
    uncached_http_get env ns st = Except.ok st := by
  unfold uncached_http_get
  rw [henv]
  simp [hne]

/-- C4 witness: a concrete 500 response leaves a warm state unchanged. -/
theorem apollo_c4_witness :
    uncached_http_get env500 "application" stWarm = Except.ok stWarm :=
  apollo_c4_non200_no_update env500 "application" stWarm 500 [] rfl
    (by decide)

/-! ## Claim C5 -/

/-- C5 counterexample: a state in which a prior `get_value` has already
created a cache entry (`stPrior`). `start` skips the blocking poll —
it returns the state unchanged, while an actual `_long_poll` against the
same server would have recorded notification id 7 — so the first `start()`
does *not* perform a synchronous poll for every construction state. -/
theorem apollo_c5_counterexample :
    start_sync 5 cfgPlain envChange stPrior = Except.ok stPrior
    ∧ (long_poll 5 cfgPlain envChange stPrior).map
        (fun s => dictLookup s.notificationMap "application") =
      Except.ok (some 7)
    ∧ dictLookup stPrior.notificationMap "application" = some (-1) :=
  ⟨rfl, rfl, rfl⟩

/-- C5 (amended): the first `start()` performs the synchronous blocking
`_long_poll` if and only if the cache is empty: on a freshly constructed
client it equals one blocking poll, while on a state where a prior
`get_value` already created a cache entry it returns with no poll at
all. -/
theorem apollo_c5_start_conditional_poll (fuel : Nat) (cfg : Config)
    (env : Env) (st st2 : ClientState) (hempty : st.cache = [])
    (hnon : st2.cache ≠ []) :
    start_sync fuel cfg env st = long_poll fuel cfg env st
    ∧ start_sync fuel cfg env st2 = Except.ok st2 := by
  constructor
  · simp [start_sync, hempty]
  · cases hc : st2.cache with
    | nil => exact absurd hc hnon
    | cons p rest => simp [start_sync, hc]

/-- C5 witness: empty-cache state polls, warm-cache state does not. -/
theorem apollo_c5_witness :
    start_sync 1 cfgPlain env304 stEmpty = long_poll 1 cfgPlain env304 stEmpty
    ∧ start_sync 1 cfgPlain env304 stPrior = Except.ok stPrior :=
  apollo_c5_start_conditional_poll 1 cfgPlain env304 stEmpty stPrior rfl
    (by decide)

/-! ## Claim C7 -/

/-- C7: saving a blob to disk and loading it back returns the same blob,
provided the write succeeded. -/
theorem apollo_c7_disk_roundtrip (env : Env) (ns data : String)
    (st : ClientState) (h : env.saveFails ns = false) :
    get_conf_from_disk ns (save_conf_to_disk env ns data st) = some data := by
  simp [save_conf_to_disk, get_conf_from_disk, h, dictLookup_insert_self]

/-- C7 witness: a concrete round-trip through the disk store. -/
theorem apollo_c7_witness :
    get_conf_from_disk "app.yaml"
      (save_conf_to_disk env304 "app.yaml" "hello" stEmpty) = some "hello" :=
  apollo_c7_disk_roundtrip env304 "app.yaml" "hello" stEmpty rfl

/-! ## Claim C9 -/

/-- C9: `stop()` only sets the cooperative `_stopping` flag (all other
state is untouched); an in-flight cycle steps to completion — its
long-poll updates are applied — regardless of the flag, because the
listener consults `_stopping` only at the top of the loop; and
`stopped = True` arises only from the top-of-loop transition taken with
the flag set (or was already true). -/
theorem apollo_c9_stop_semantics (fuel : Nat) (cfg : Config) (env : Env)
    (st stp r : ClientState) (ph : Phase)
    (hok : long_poll fuel cfg env st = Except.ok r)
    (hstopped : ((listenerStep fuel cfg env (ph, stp)).2).stopped = true) :
    (stop st).stopping = true ∧ (stop st).stopped = st.stopped
    ∧ (stop st).notificationMap = st.notificationMap
    ∧ (stop st).cache = st.cache ∧ (stop st).cacheFile = st.cacheFile
    ∧ (stop st).disk = st.disk
    ∧ listenerStep fuel cfg env (Phase.inFlight, st) = (Phase.top, r)
    ∧ (stp.stopped = true ∨ (ph = Phase.top ∧ stp.stopping = true)) := by
  refine ⟨rfl, rfl, rfl, rfl, rfl, rfl, ?_, ?_⟩
  · simp [listenerStep, runCycle, hok]
  · cases ph with
    | top =>
      by_cases hs : stp.stopping
      · exact Or.inr ⟨rfl, hs⟩
      · left
        simpa [listenerStep, hs] using hstopped
    | inFlight =>
      left
      have : (runCycle fuel cfg env stp).stopped = stp.stopped := by
        unfold runCycle
        cases hlp : long_poll fuel cfg env stp with
        | ok s => exact ((statePres cfg env fuel).1 stp s hlp).2.1
        | error e => rfl
      rw [← this]
      simpa [listenerStep] using hstopped
    | halted =>
      left
      simpa [listenerStep] using hstopped

/-- C9 witness: a 304 cycle on a state whose stop flag is already set
still completes, and a top-of-loop step with the flag set halts. -/
theorem apollo_c9_witness :
    (stop stEmpty).stopping = true ∧ (stop stEmpty).stopped = stEmpty.stopped
    ∧ (stop stEmpty).notificationMap = stEmpty.notificationMap
    ∧ (stop stEmpty).cache = stEmpty.cache
    ∧ (stop stEmpty).cacheFile = stEmpty.cacheFile
    ∧ (stop stEmpty).disk = stEmpty.disk
    ∧ listenerStep 1 cfgPlain env304 (Phase.inFlight, stEmpty) =
      (Phase.top, stEmpty)
    ∧ ((stop stEmpty).stopped = true ∨
        (Phase.top = Phase.top ∧ (stop stEmpty).stopping = true)) :=
  apollo_c9_stop_semantics 1 cfgPlain env304 stEmpty (stop stEmpty) stEmpty
    Phase.top rfl (by decide)

/-! ## Claim C10 -/

/-- C10 counterexample: with *no* callback registered, a poll/apply cycle
that replaces namespace `a`'s snapshot still evicts the parsed-file cache
entry for `a` — the parsed-file cache is not left untouched. -/
theorem apollo_c10_counterexample :
    (long_poll 3 cfgPlain envEvict stEvict).map
      (fun s => dictLookup s.cacheFile "a") = Except.ok none
    ∧ dictLookup stEvict.cacheFile "a" = some (FileView.raw "old") :=
  ⟨rfl, rfl⟩

/-- C10 (amended): when no change callback is registered the sync loop
computes no parsed-file view: it leaves the disk store unchanged and
never *adds* a parsed-file cache entry (anything cached afterwards was
cached, with the same value, before) — though a successful fetch may
still *evict* entries for replaced namespaces. -/
theorem apollo_c10_no_callback_frame (fuel : Nat) (cfg : Config)
    (env : Env) (st st' : ClientState) (k : String) (v : FileView)
    (hcb : cfg.hasOnChangeCb = false)
    (hok : long_poll fuel cfg env st = Except.ok st') :
    st'.disk = st.disk
    ∧ (dictLookup st'.cacheFile k = some v →
        dictLookup st.cacheFile k = some v) := by
  have hf := (noCbFrame cfg env hcb fuel).1 st st' hok
  exact ⟨hf.1, fun hsome => hf.2 k v hsome⟩

/-- The state after the `envEvict` eviction cycle on `stEvict`: snapshot
replaced, parsed-file entry for `a` evicted, disk untouched. -/
def stEvictAfter : ClientState :=
  ⟨[("a", 1)], [("a", [("content", "new")])], [], [], false, false⟩

/-- C10 witness: the no-callback eviction cycle (which empties the parsed
cache) still leaves the disk store unchanged, and whatever parsed entry
it would have left was already there. -/
theorem apollo_c10_witness :
    stEvictAfter.disk = stEvict.disk
    ∧ (dictLookup stEvictAfter.cacheFile "a" = some (FileView.raw "old") →
        dictLookup stEvict.cacheFile "a" = some (FileView.raw "old")) :=
  apollo_c10_no_callback_frame 3 cfgPlain envEvict stEvict stEvictAfter "a"
    (FileView.raw "old") rfl rfl

/-! ## Claim C1 -/

/-- C1 counterexample: with the server transiently unavailable (the
long-poll answers 500), a `get_value` on a namespace not yet in the cache
*raises* — the `Exception` from `_long_poll` propagates to the caller
instead of the caller-supplied default `"10"` being returned. -/
theorem apollo_c1_counterexample :
    get_value 5 cfgPlain env500 "timeout" (some "10") "application" false
      stEmpty = Except.error (PyErr.apolloError 500) := rfl

/-- C1 (amended): a read on a namespace already present in the cache
(with auto-fetch disabled) performs no long-poll and never raises — it
returns the cached value, or the caller-supplied default when the key is
absent; but a read on a namespace *missing* from the cache performs a
blocking `_long_poll` whose transport failure (here a connection
failure/timeout) propagates to the caller as an exception. -/
theorem apollo_c1_read_failure_behavior (fuel : Nat) (cfg : Config)
    (env : Env) (key : String) (dflt : Option String) (ns : String)
    (af : Bool) (st stc : ClientState) (m : List (String × String))
    (hwarm : dictLookup st.cache ns = some m)
    (hcold : dictLookup stc.cache ns = none)
    (hexn : env.longPoll = LPResp.exn) :
    get_value (fuel + 1) cfg env key dflt ns false st =
      Except.ok ((match dictLookup m key with
        | some v => some v
        | none => dflt), ensureNotif st ns)
    ∧ get_value (fuel + 2) cfg env key dflt ns af stc =
      Except.error PyErr.requestExn := by
  constructor
  · have hc : dictLookup (ensureNotif st ns).cache ns = some m := by
      rw [ensureNotif_cache]; exact hwarm
    simp only [get_value, hc, Option.isSome_some, if_true]
    unfold readCachedValue
    rw [hc]
    cases hk : dictLookup m key with
    | some w => simp [hk]
    | none => simp [hk]
  · have hc2 : (dictLookup (ensureNotif stc ns).cache ns).isSome = false := by
      rw [ensureNotif_cache, hcold]; rfl
    simp only [get_value, hc2, Bool.false_eq_true, if_false]
    simp [long_poll, hexn, Except.bind]

/-- C1 witness: warm read returns the cached value with the server down;
cold read on the same server raises. -/
theorem apollo_c1_witness :
    get_value 2 cfgPlain envExn "k" (some "d") "application" false stWarm =
      Except.ok ((match dictLookup [("k", "v")] "k" with
        | some v => some v
        | none => some "d"), ensureNotif stWarm "application")
    ∧ get_value 3 cfgPlain envExn "k" (some "d") "application" false
        stEmpty = Except.error PyErr.requestExn :=
  apollo_c1_read_failure_behavior 1 cfgPlain envExn "k" (some "d")
    "application" false stWarm stEmpty [("k", "v")] rfl rfl rfl

/-! ## Claim C3 -/

/-- C3 counterexample: a 200 long-poll response listing namespace `a`
twice (`(a,1)` then `(a,2)`), with a change callback registered and the
`/configs` fetch failing, makes the callback's `get_conf_file` trigger a
*reentrant* long-poll while the first entry `(a,1)` is being processed;
after that entry's processing completes, the stored id for `a` is 2, not
the entry's id 1 — refuting the claim as stated. -/
theorem apollo_c3_counterexample :
    (processEntry 12 cfgCb envDup "a" 1 stA).map
      (fun st => dictLookup st.notificationMap "a") = Except.ok (some 2) :=
  rfl

/-- C3 (amended): after processing a ChangeSet entry `(ns, id)`, the
notification map's stored id for `ns` equals `id` regardless of the prior
value — provided every entry for `ns` in the long-poll response carries
the same id `id` (in particular whenever the response lists each
namespace at most once); a registered callback's reentrant long-poll can
otherwise overwrite it with a later conflicting duplicate's id. -/
theorem apollo_c3_sequence_adoption (fuel : Nat) (cfg : Config) (env : Env)
    (ns : String) (nid : Int) (st st' : ClientState)
    (henv : EnvConsistent env ns nid)
    (hok : processEntry fuel cfg env ns nid st = Except.ok st') :
    dictLookup st'.notificationMap ns = some nid := by
  cases fuel with
  | zero => simp [processEntry] at hok
  | succ fuel =>
    simp only [processEntry] at hok
    cases huc : uncached_http_get env ns st with
    | error e => rw [huc] at hok; simp at hok
    | ok st1 =>
      rw [huc] at hok
      dsimp only at hok
      have hmap : dictLookup (dictInsert st1.notificationMap ns nid) ns =
          some nid := dictLookup_insert_self _ _ _
      by_cases hcb : cfg.hasOnChangeCb
      · rw [if_pos hcb] at hok
        cases hg : get_conf_file fuel cfg env ns true
            { st1 with
              notificationMap := dictInsert st1.notificationMap ns nid } with
        | error e => rw [hg] at hok; simp at hok
        | ok pr =>
          obtain ⟨vv, st3⟩ := pr
          rw [hg] at hok
          dsimp only at hok
          cases hok
          exact ((statePres cfg env fuel).2.2.2.2 ns true _ vv _ hg).2.2.2
            ns nid henv hmap
      · rw [if_neg hcb] at hok
        cases hok
        exact hmap

def stC3W : ClientState := ⟨[("application", 7)], [], [], [], false, false⟩

/-- C3 witness: a single consistent entry `(application, 7)` adopted over
the prior id `-1`. -/
theorem apollo_c3_witness :
    dictLookup stC3W.notificationMap "application" = some 7 :=
  apollo_c3_sequence_adoption 3 cfgPlain env304 "application" 7 stEmpty
    stC3W
    (by
      intro c es h p hp hk
      simp [env304] at h
      rw [h.2] at hp
      simp at hp)
    rfl

/-! ## Claim C6 -/

/-- C6: a `get_value` on a namespace not in the cache performs exactly one
blocking poll/apply cycle guarding the read — it *is* the composition of
one `_long_poll` on the cold-prepared state with the post-poll read — and
on return the namespace has a cache entry whether or not the key was
found. -/
theorem apollo_c6_cold_namespace_sync (fuel : Nat) (cfg : Config)
    (env : Env) (key : String) (dflt : Option String) (ns : String)
    (af : Bool) (st : ClientState) (v : Option String) (st' : ClientState)
    (hmiss : dictLookup st.cache ns = none)
    (hok : get_value (fuel + 1) cfg env key dflt ns af st =
      Except.ok (v, st')) :
    get_value (fuel + 1) cfg env key dflt ns af st =
      (long_poll fuel cfg env (coldPrep st ns)).bind
        (readCachedValue env key dflt ns af)
    ∧ (dictLookup st'.cache ns).isSome = true := by
  have hc : (dictLookup (ensureNotif st ns).cache ns).isSome = false := by
    rw [ensureNotif_cache, hmiss]; rfl
  have heq : get_value (fuel + 1) cfg env key dflt ns af st =
      (long_poll fuel cfg env (coldPrep st ns)).bind
        (readCachedValue env key dflt ns af) := by
    simp only [get_value, hc, Bool.false_eq_true, if_false]
    rfl
  refine ⟨heq, ?_⟩
  rw [heq] at hok
  cases hlp : long_poll fuel cfg env (coldPrep st ns) with
  | error e => rw [hlp] at hok; simp [Except.bind] at hok
  | ok st3 =>
    rw [hlp] at hok
    simp only [Except.bind] at hok
    have h1 : (dictLookup (coldPrep st ns).cache ns).isSome := by
      simp [coldPrep, dictLookup_insert_self]
    have h2 := ((statePres cfg env fuel).1 _ _ hlp).2.2.1 ns h1
    exact (preserves_readCachedValue hok).2.2.1 ns h2

def stC6W : ClientState :=
  ⟨[("application", -1)], [("application", [])], [], [], false, false⟩

/-- C6 witness: a cold read against a 304-answering server leaves the
namespace cached (with an empty snapshot) even though the key was
absent. -/
theorem apollo_c6_witness :
    get_value 4 cfgPlain env304 "k" none "application" false stEmpty =
      (long_poll 3 cfgPlain env304 (coldPrep stEmpty "application")).bind
        (readCachedValue env304 "k" none "application" false)
    ∧ (dictLookup stC6W.cache "application").isSome = true :=
  apollo_c6_cold_namespace_sync 3 cfgPlain env304 "k" none "application"
    false stEmpty none stC6W rfl rfl

/-! ## Claim C8 -/

/-- C8: whenever a successful fetch replaces a namespace's raw snapshot —
via `_uncached_http_get` (200 on `/configs`) or `_cached_http_get` (ok on
`/configfiles`) — the parsed-file cache entry for that namespace is
evicted; and a `get_conf_file` on a state whose parsed entry is absent
returns (and re-caches) the parse of the *current* blob under the
namespace's `content` key, not any stale parsed value. -/
theorem apollo_c8_parse_cache_invalidation (env : Env) (cfg : Config)
    (fuel : Nat) (ns key : String) (dflt : Option String)
    (st1 st2 st : ClientState) (cfgs data m : List (String × String))
    (v : String) (af : Bool)
    (h200 : env.configs ns = CfgResp.status 200 cfgs)
    (hfile : env.configfiles ns = CfgFileResp.ok data)
    (hmiss : dictLookup st.cacheFile ns = none)
    (hcache : dictLookup st.cache ns = some m)
    (hcontent : dictLookup m "content" = some v) :
    (uncached_http_get env ns st1).map
      (fun s => dictLookup s.cacheFile ns) = Except.ok none
    ∧ (cached_http_get env key dflt ns st2).map
      (fun p => dictLookup p.2.cacheFile ns) = Except.ok none
    ∧ (get_conf_file (fuel + 2) cfg env ns af st).map Prod.fst =
      Except.ok (some (loads ns v))
    ∧ (get_conf_file (fuel + 2) cfg env ns af st).map
      (fun p => dictLookup p.2.cacheFile ns) =
      Except.ok (some (loads ns v)) := by
  have hgv : get_value (fuel + 1) cfg env "content"
      (if cfg.autoFailover && af then get_conf_from_disk ns st else none)
      ns true st = Except.ok (some v, ensureNotif st ns) := by
    have hc : dictLookup (ensureNotif st ns).cache ns = some m := by
      rw [ensureNotif_cache]; exact hcache
    simp only [get_value, hc, Option.isSome_some, if_true]
    unfold readCachedValue
    rw [hc]
    dsimp only
    rw [hcontent]
  refine ⟨?_, ?_, ?_, ?_⟩
  · unfold uncached_http_get
    rw [h200]
    simp [Except.map, dictLookup_erase_self]
  · unfold cached_http_get
    rw [hfile]
    cases hk : dictLookup data key <;>
      simp [hk, Except.map, dictLookup_erase_self]
  · simp only [get_conf_file, hmiss]
    rw [hgv]
    simp [Except.map]
  · simp only [get_conf_file, hmiss]
    rw [hgv]
    simp [Except.map, dictLookup_insert_self]

def envC8 : Env :=
  ⟨LPResp.status 304 [], fun _ => CfgResp.status 200 [("content", "hello")],
    fun _ => CfgFileResp.ok [("content", "hello")], fun _ => false⟩
def stC8 : ClientState :=
  ⟨[("app.yaml", -1)], [("app.yaml", [("content", "hello")])], [], [],
    false, false⟩

/-- C8 witness: a concrete replaced snapshot evicts the parsed entry, and
a parsed-cache miss re-parses the current blob `"hello"` of
`app.yaml`. -/
theorem apollo_c8_witness :
    (uncached_http_get envC8 "app.yaml" stEvict).map
      (fun s => dictLookup s.cacheFile "app.yaml") = Except.ok none
    ∧ (cached_http_get envC8 "k" none "app.yaml" stEvict).map
      (fun p => dictLookup p.2.cacheFile "app.yaml") = Except.ok none
    ∧ (get_conf_file 3 cfgPlain envC8 "app.yaml" true stC8).map Prod.fst =
      Except.ok (some (loads "app.yaml" "hello"))
    ∧ (get_conf_file 3 cfgPlain envC8 "app.yaml" true stC8).map
      (fun p => dictLookup p.2.cacheFile "app.yaml") =
      Except.ok (some (loads "app.yaml" "hello")) :=
  apollo_c8_parse_cache_invalidation envC8 cfgPlain 1 "app.yaml" "k" none
    stEvict stEvict stC8 [("content", "hello")] [("content", "hello")]
    [("content", "hello")] "hello" true rfl rfl rfl rfl rfl
